import Mathlib

/-!
Verification of `action_plugins/include_vars_dir.py`.

The file contains a shallow embedding of the plugin's `ActionModule`
(`_set_args`, `run`, `_traverse_dir_depth`, `_ignore_file`, `_load_files`)
over explicit models of the external collaborators: the Python `re` module
(`ReEnv`), the filesystem (`FS`, covering `os.walk` and `os.path.exists`)
and the host's structured-file loader (`Loader`).  Python dictionaries are
modelled as insertion-ordered association lists with unique keys (`dictSet`,
`dictGet`, `dictUpdate` mirror `d[k] = v`, `d.get(k)` and `d.update(e)`).
-/

namespace IncludeVarsDir

/-- Parsed Python values as returned by the loader: `None`, strings,
integers, lists and (insertion-ordered) dictionaries. -/
inductive PVal where
  | vnone
  | vstr (s : String)
  | vint (n : Int)
  | vlist (xs : List PVal)
  | vdict (entries : List (String × PVal))

/-- Python `d[k] = v` on an insertion-ordered dictionary rendered as an
association list: replace the first binding of `k` in place, otherwise
append the new binding at the end. -/
def dictSet {α : Type} : List (String × α) → String → α → List (String × α)
  | [], k, v => [(k, v)]
  | (a, b) :: t, k, v =>
    if a = k then (a, v) :: t else (a, b) :: dictSet t k v

/-- Python `d.get(k)`: value of the first binding of `k`, if any. -/
def dictGet {α : Type} : List (String × α) → String → Option α
  | [], _ => none
  | (a, b) :: t, k => if a = k then some b else dictGet t k

/-- Python `d.update(e)`: set every binding of `e`, in `e`'s order. -/
def dictUpdate {α : Type} (d e : List (String × α)) : List (String × α) :=
  e.foldl (fun acc p => dictSet acc p.1 p.2) d

/-- Values of the invocation's argument mapping (`self._task.args`). -/
inductive ArgVal where
  | vstr (s : String)
  | vint (n : Int)
  | vlist (xs : List String)
  | vdict (entries : List (String × String))
deriving DecidableEq, Repr

/-- Python truthiness of an argument value. -/
def argTruthy : ArgVal → Bool
  | .vstr s => s ≠ ""
  | .vint n => n ≠ 0
  | .vlist xs => !xs.isEmpty
  | .vdict d => !d.isEmpty

/-- Python `'\x7b0\x7d'.format(v)`: render an argument value as a string
(identity on strings; the list/dict renderings are only used inside
diagnostic messages and are not load-bearing). -/
def argFormat : ArgVal → String
  | .vstr s => s
  | .vint n => toString n
  | .vlist xs => String.intercalate ", " xs
  | .vdict d => String.intercalate ", " (d.map Prod.fst)

/-- `self._task.args.get(k)` (`None` default). -/
def pyGet (args : List (String × ArgVal)) (k : String) : Option ArgVal :=
  (args.find? (fun p => p.1 = k)).map (fun p => p.2)

/-- `self._task.args.get('depth', 0)`; non-integer depth values are outside
the model (the plugin would only fault on them later, inside a comparison). -/
def pyGetInt (args : List (String × ArgVal)) (k : String) (d : Int) : Int :=
  match pyGet args k with
  | some (.vint n) => n
  | _ => d

/-- Python `s.split()`: split on whitespace runs, discarding empty pieces. -/
def pySplit (s : String) : List String :=
  (s.split Char.isWhitespace).filter (fun t => t ≠ "")

/-- `os.path.join` of a directory and a relative component. -/
def pathJoin (a b : String) : String := a ++ "/" ++ b

/-- Role context (`self._task._role`), exposing `_role_path`. -/
structure Role where
  rolePath : String

/-- The task handed to the plugin: its argument mapping, the raw task
definition `self._task._ds` (stringified) and the optional role context. -/
structure Task where
  args : List (String × ArgVal)
  ds : String
  role : Option Role

/-- Model of the Python `re` module: which pattern strings compile, and
what `re.search(pattern, s)` finds.  `search` is only consulted on valid
patterns; `re.compile` and `re.search` raise on an invalid pattern, which
the embedding reflects through `valid`. -/
structure ReEnv where
  valid : String → Bool
  search : String → String → Bool

/-- Model of the filesystem: `os.walk` (the `dirnames` component of each
triple is dropped — the plugin never reads it) and `os.path.exists`. -/
structure FS where
  walk : String → List (String × List String)
  pathExists : String → Bool

/-- Model of the host loader: `_get_file_contents(path)` returning the raw
content and the safe-to-log flag, and `load(data, show_content)` parsing
raw content into a Python value. -/
structure Loader where
  fileContents : String → String × Bool
  load : String → Bool → PVal

/-- The ignore-file collection held in `self.ignore_files` after
`_set_args`: either a list of pattern strings, or — on the early-return
path for a dict-valued `ignore_files` argument — the raw dict itself. -/
inductive IgnoreColl where
  | pats (xs : List String)
  | dictColl (d : List (String × String))
deriving DecidableEq, Repr

/-- The instance attributes assigned by `_set_args`. -/
structure Settings where
  return_results_as_name : Option ArgVal
  source_dir : Option ArgVal
  depth : Int
  files_matching : Option ArgVal
  matcher : Option String
  ignore_files : IgnoreColl
deriving DecidableEq, Repr

/-- Outcomes of `_set_args`, distinguishing the two failure dicts it
*returns* (whose value `run` discards) from the exceptions it *raises*. -/
inductive SetArgsResult where
  | invalidOptionReturn (msg : String)
  | ignoreDictReturn (msg : String) (s : Settings)
  | reCompileError (pat : String)
  | extendTypeError
  | missingDirError (msg : String)
  | ok (s : Settings)
deriving DecidableEq, Repr

def VALID_ARGUMENTS : List String :=
  ["name", "dir", "depth", "files_matching", "ignore_files"]

def IGNORE_FILES : List String := [".*.md", ".*.py", ".*.pyc"]

/-- The three concatenated literals of the missing-directory message,
before the raw task definition is appended. -/
def noDirMsgHead : String :=
  "No directory was found for the included vars. " ++
  "Use `- include_vars_dir: <dirname>` or the `dir:` option " ++
  "to specify the vars dirname."

/-- Tail of `_set_args`: the `if not self.source_dir` check (the
`.extend(IGNORE_FILES)` has already been folded into `ignoreXs`). -/
def finishSetArgs (task : Task) (name source_dir : Option ArgVal) (depth : Int)
    (files_matching : Option ArgVal) (matcher : Option String)
    (ignoreXs : List String) : SetArgsResult :=
  if (source_dir.map argTruthy).getD false then
    .ok ⟨name, source_dir, depth, files_matching, matcher, .pats ignoreXs⟩
  else
    .missingDirError (noDirMsgHead ++ task.ds)

/-- The `ignore_files` section of `_set_args`: a string is whitespace-split,
a dict triggers the early `return` of a failure dict (with the attributes
assigned so far, and without the `IGNORE_FILES` extension), any other
non-list value makes the subsequent `.extend` raise. -/
def setArgsIgnore (task : Task) (name source_dir : Option ArgVal) (depth : Int)
    (files_matching : Option ArgVal) (matcher : Option String) : SetArgsResult :=
  match pyGet task.args "ignore_files" with
  | some (.vstr s) =>
      finishSetArgs task name source_dir depth files_matching matcher
        (pySplit s ++ IGNORE_FILES)
  | some (.vlist xs) =>
      finishSetArgs task name source_dir depth files_matching matcher
        (xs ++ IGNORE_FILES)
  | some (.vdict d) =>
      .ignoreDictReturn (argFormat (.vdict d) ++ " must be a list")
        ⟨name, source_dir, depth, files_matching, matcher, .dictColl d⟩
  | some (.vint _) => .extendTypeError
  | none =>
      finishSetArgs task name source_dir depth files_matching matcher
        IGNORE_FILES

/-- `_set_args`: reject unknown argument keys (by returning a failure dict),
read the arguments, compile `files_matching` when truthy (raising on an
invalid pattern), process `ignore_files`, then raise when `dir` is missing
or falsy. -/
def setArgs (env : ReEnv) (task : Task) : SetArgsResult :=
  match task.args.find? (fun p => !(VALID_ARGUMENTS.contains p.1)) with
  | some p => .invalidOptionReturn (p.1 ++ " is not a valid option in debug")
  | none =>
    let name := pyGet task.args "name"
    let source_dir := pyGet task.args "dir"
    let depth := pyGetInt task.args "depth" 0
    let files_matching := pyGet task.args "files_matching"
    match files_matching with
    | some v =>
      if argTruthy v then
        let pat := argFormat v
        if env.valid pat then
          setArgsIgnore task name source_dir depth files_matching (some pat)
        else .reCompileError pat
      else setArgsIgnore task name source_dir depth files_matching none
    | none => setArgsIgnore task name source_dir depth files_matching none

/-- Lexicographic strict comparison of character sequences by code point —
the ordering Python uses when comparing strings. -/
def charListLt : List Char → List Char → Bool
  | [], [] => false
  | [], _ :: _ => true
  | _ :: _, [] => false
  | c :: cs, d :: ds =>
    if c.toNat < d.toNat then true
    else if d.toNat < c.toNat then false
    else charListLt cs ds

/-- Python's `a <= b` on strings: code-point lexicographic order. -/
def strLe (a b : String) : Bool := !charListLt b.data a.data

/-- Insert a string into a sorted list, before the first element it is
`strLe` to (a stable insertion, like Python's stable `list.sort`). -/
def insertStr (x : String) : List String → List String
  | [] => [x]
  | y :: t => if strLe x y then x :: y :: t else y :: insertStr x t

/-- Stable lexicographic sort of filenames (`current_files.sort()`). -/
def sortStrs : List String → List String
  | [] => []
  | x :: t => insertStr x (sortStrs t)

/-- Insert a walk entry into a list sorted by directory path. -/
def insertPair (x : String × List String) :
    List (String × List String) → List (String × List String)
  | [] => [x]
  | y :: t => if strLe x.1 y.1 then x :: y :: t else y :: insertPair x t

/-- Stable sort of the materialized walk by directory path
(`sorted_walk.sort(key=lambda x: x[0])`). -/
def sortPairs : List (String × List String) → List (String × List String)
  | [] => []
  | x :: t => insertPair x (sortPairs t)

/-- Loop body of `_traverse_dir_depth`: increment the counter, yield the
directory (with its filenames sorted) while the counter is within the
limit or the limit is 0, otherwise stop the whole traversal. -/
def traverseGo (depth : Int) : Int → List (String × List String) →
    List (String × List String)
  | _, [] => []
  | currentDepth, (root, files) :: rest =>
    if currentDepth + 1 ≤ depth ∨ depth = 0 then
      (root, sortStrs files) :: traverseGo depth (currentDepth + 1) rest
    else []

/-- `_traverse_dir_depth`: materialize `os.walk`, sort it by directory
path, then yield depth-bounded entries. -/
def traverseDirDepth (fs : FS) (sourceDir : String) (depth : Int) :
    List (String × List String) :=
  traverseGo depth 0 (sortPairs (fs.walk sourceDir))

/-- `_ignore_file`: test the filename against each ignore pattern with an
end-anchored search (`pattern + "$"`); an invalid pattern makes `re.search`
raise, which the `except` clause converts into a fatal error message. -/
def ignoreFile (env : ReEnv) (ignorePats : List String) (filename : String) :
    Except String Bool :=
  match ignorePats with
  | [] => .ok false
  | p :: rest =>
    if env.valid (p ++ "$") then
      if env.search (p ++ "$") filename then .ok true
      else ignoreFile env rest filename
    else .error ("Invalid regular expression: " ++ p)

/-- The patterns `_ignore_file` iterates over: iterating a Python dict
yields its keys. -/
def ignoreCollPatterns : IgnoreColl → List String
  | .pats xs => xs
  | .dictColl d => d.map Prod.fst

/-- Errors that escape `run`: raised `AnsibleError`s, `re.error` from
`re.compile`, and the `AttributeError`/`TypeError` faults that follow the
discarded failure returns of `_set_args`. -/
inductive RunErr where
  | ansibleError (msg : String)
  | reError (pat : String)
  | attributeError
  | typeError
deriving DecidableEq, Repr

/-- The mutable state of one `_load_files` call: its fragment dictionary,
failure flag and message, plus the instance-wide `self.show_content`. -/
structure LoadState where
  results : List (String × PVal)
  failed : Bool
  err_msg : String
  showContent : Bool

/-- Per-file loop of `_load_files`, in source order: the role `main.yml`
skip, the `files_matching` filter, then (unless skipped or already failed)
the existence check, the ignore filter, loading, the `None`-to-empty-dict
coercion, the mapping check and the `results.update`. -/
def loadFilesGo (env : ReEnv) (fs : FS) (ld : Loader) (hasRole : Bool)
    (matcher : Option String) (ignorePats : List String) (root : String) :
    List String → LoadState → Except RunErr LoadState
  | [], st => .ok st
  | f :: rest, st =>
    if hasRole ∧ f = "main.yml" then
      loadFilesGo env fs ld hasRole matcher ignorePats root rest st
    else
      let filepath := pathJoin root f
      let stopIter := match matcher with
        | some pat => !env.search pat f
        | none => false
      if !stopIter && !st.failed then
        if fs.pathExists filepath then
          match ignoreFile env ignorePats f with
          | .error msg => .error (.ansibleError msg)
          | .ok true => loadFilesGo env fs ld hasRole matcher ignorePats root rest st
          | .ok false =>
            let dataShow := ld.fileContents filepath
            let st1 := if !dataShow.2 then { st with showContent := false } else st
            match ld.load dataShow.1 dataShow.2 with
            | .vnone =>
              loadFilesGo env fs ld hasRole matcher ignorePats root rest
                { st1 with results := dictUpdate st1.results [] }
            | .vdict es =>
              loadFilesGo env fs ld hasRole matcher ignorePats root rest
                { st1 with results := dictUpdate st1.results es }
            | _ =>
              loadFilesGo env fs ld hasRole matcher ignorePats root rest
                { st1 with failed := true,
                           err_msg := filepath ++ " must be stored as a dictionary/hash" }
        else loadFilesGo env fs ld hasRole matcher ignorePats root rest st
      else loadFilesGo env fs ld hasRole matcher ignorePats root rest st

/-- `_load_files`: fold the per-file loop over the directory's filenames,
starting from an empty fragment, no failure and the caller's
`self.show_content`. -/
def loadFiles (env : ReEnv) (fs : FS) (ld : Loader) (hasRole : Bool)
    (matcher : Option String) (ignorePats : List String)
    (showContent : Bool) (root : String) (files : List String) :
    Except RunErr LoadState :=
  loadFilesGo env fs ld hasRole matcher ignorePats root files
    ⟨[], false, "", showContent⟩

/-- The loop state of `run` over yielded directories. -/
structure RunState where
  results : List (String × PVal)
  failedFlag : Bool
  message : String
  showContent : Bool

/-- The `for root_dir, filenames in self._traverse_dir_depth()` loop of
`run`: merge each non-failed fragment into the accumulator, and on the
first failed fragment record the failure and `break`. -/
def runDirs (env : ReEnv) (fs : FS) (ld : Loader) (hasRole : Bool)
    (matcher : Option String) (ignorePats : List String) :
    List (String × List String) → RunState → Except RunErr RunState
  | [], st => .ok st
  | (root, files) :: rest, st =>
    match loadFiles env fs ld hasRole matcher ignorePats st.showContent root files with
    | .error e => .error e
    | .ok out =>
      if !out.failed then
        runDirs env fs ld hasRole matcher ignorePats rest
          { st with results := dictUpdate st.results out.results,
                    showContent := out.showContent }
      else
        .ok { st with failedFlag := true, message := out.err_msg,
                      showContent := out.showContent }

/-- The result mapping `run` returns; `Option` marks key presence (the
base result of the superclass is modelled as empty). -/
structure RunResult where
  failed : Option Bool
  message : Option String
  ansible_facts : Option (List (String × PVal))
  no_log : Option Bool

/-- The role reinterpretation of `self.source_dir` in `run`, followed by
the uses of the path in `os.path` calls: a missing or non-string `dir`
value faults there (`TypeError`). -/
def resolveSourceDir (role : Option Role) (sd : Option ArgVal) :
    Except RunErr String :=
  match role, sd with
  | some r, some (.vstr d) =>
      .ok (if d = "vars" then pathJoin r.rolePath d
           else pathJoin (pathJoin r.rolePath "vars") d)
  | some _, _ => .error .typeError
  | none, some (.vstr d) => .ok d
  | none, _ => .error .typeError

/-- `if self.return_results_as_name: scope[name] = results` (non-string
name keys are rendered through `argFormat`; the claims only exercise
string names). -/
def finalizeName (name : Option ArgVal) (results : List (String × PVal)) :
    List (String × PVal) :=
  match name with
  | some v => if argTruthy v then [(argFormat v, PVal.vdict results)] else results
  | none => results

/-- Body of `run` after `_set_args` has produced instance attributes:
resolve the role-relative directory, check existence, run the merge loop,
then finalize — note that `ansible_facts` and `_ansible_no_log` are
assigned even when the loop broke on a failed fragment. -/
def runWithSettings (env : ReEnv) (fs : FS) (ld : Loader) (task : Task)
    (s : Settings) : Except RunErr RunResult :=
  match resolveSourceDir task.role s.source_dir with
  | .error e => .error e
  | .ok sd =>
    if fs.pathExists sd then
      match runDirs env fs ld task.role.isSome s.matcher
          (ignoreCollPatterns s.ignore_files)
          (traverseDirDepth fs sd s.depth) ⟨[], false, "", true⟩ with
      | .error e => .error e
      | .ok st =>
        .ok { failed := if st.failedFlag then some true else none,
              message := if st.failedFlag then some st.message else none,
              ansible_facts := some (finalizeName s.return_results_as_name st.results),
              no_log := some st.showContent }
    else
      .ok { failed := some true,
            message := some (sd ++ " directory does not exist"),
            ansible_facts := none,
            no_log := none }

/-- `run`: call `_set_args` and *discard its return value* — the two
failure dicts it can return are lost, after which `run` either faults on
the attributes `_set_args` never assigned (invalid option) or proceeds
with the attributes it did assign (dict-valued `ignore_files`); raised
exceptions propagate. -/
def run (env : ReEnv) (fs : FS) (ld : Loader) (task : Task) :
    Except RunErr RunResult :=
  match setArgs env task with
  | .invalidOptionReturn _ => .error .attributeError
  | .reCompileError pat => .error (.reError pat)
  | .extendTypeError => .error .typeError
  | .missingDirError msg => .error (.ansibleError msg)
  | .ignoreDictReturn _ s => runWithSettings env fs ld task s
  | .ok s => runWithSettings env fs ld task s

/-- A dictionary has pairwise-distinct keys (always true of real Python
dicts, which the association lists model). -/
def keysNodup {α : Type} (d : List (String × α)) : Prop :=
  (d.map Prod.fst).Nodup

instance {α : Type} (d : List (String × α)) : Decidable (keysNodup d) := by
  unfold keysNodup; infer_instance

/-- Loading `fp` parses to a value that is neither `None` nor a mapping —
exactly the condition under which `_load_files` records a failure for
`fp`. -/
def loadNonMapping (ld : Loader) (fp : String) : Bool :=
  match ld.load (ld.fileContents fp).1 (ld.fileContents fp).2 with
  | .vnone => false
  | .vdict _ => false
  | _ => true

/-- What the `_load_files` loop does with one (not-yet-failed) file:
skip it, load a dictionary (`None` contributing the empty dict) together
with the file's safe-to-log flag, record a not-a-mapping failure, or
raise the invalid-ignore-pattern error. -/
inductive FileStep where
  | skip
  | load (safeFlag : Bool) (es : List (String × PVal))
  | failStep (safeFlag : Bool)
  | raiseStep (msg : String)

/-- Observer mirroring the per-file guards of `_load_files`, in source
order: the role `main.yml` skip, the `files_matching` filter, the
existence check, the ignore filter, then the load and mapping check. -/
def fileStep (env : ReEnv) (fs : FS) (ld : Loader) (hasRole : Bool)
    (matcher : Option String) (ignorePats : List String) (root f : String) :
    FileStep :=
  if hasRole ∧ f = "main.yml" then .skip
  else
    let filepath := pathJoin root f
    let stopIter := match matcher with
      | some pat => !env.search pat f
      | none => false
    if !stopIter then
      if fs.pathExists filepath then
        match ignoreFile env ignorePats f with
        | .error msg => .raiseStep msg
        | .ok true => .skip
        | .ok false =>
          let dataShow := ld.fileContents filepath
          match ld.load dataShow.1 dataShow.2 with
          | .vnone => .load dataShow.2 []
          | .vdict es => .load dataShow.2 es
          | _ => .failStep dataShow.2
      else .skip
    else .skip

/-- The dictionary a file contributes to the merge, or `none` when it is
skipped or not a mapping. -/
def loadedDictOfFile (env : ReEnv) (fs : FS) (ld : Loader) (hasRole : Bool)
    (matcher : Option String) (ignorePats : List String) (root f : String) :
    Option (List (String × PVal)) :=
  match fileStep env fs ld hasRole matcher ignorePats root f with
  | .load _ es => some es
  | _ => none

/-- The dictionaries contributed by one directory's files, in order. -/
def loadedDictsOfDir (env : ReEnv) (fs : FS) (ld : Loader) (hasRole : Bool)
    (matcher : Option String) (ignorePats : List String) (root : String)
    (files : List String) : List (List (String × PVal)) :=
  files.filterMap (loadedDictOfFile env fs ld hasRole matcher ignorePats root)

/-- The dictionaries contributed by a whole (already traversed) walk, in
traversal order. -/
def loadedDictsOfWalk (env : ReEnv) (fs : FS) (ld : Loader) (hasRole : Bool)
    (matcher : Option String) (ignorePats : List String)
    (entries : List (String × List String)) : List (List (String × PVal)) :=
  match entries with
  | [] => []
  | (root, files) :: rest =>
    loadedDictsOfDir env fs ld hasRole matcher ignorePats root files ++
      loadedDictsOfWalk env fs ld hasRole matcher ignorePats rest

/-- The dictionaries an invocation with settings `s` over resolved source
directory `sd` loads, in traversal order. -/
def invocationLoadedDicts (env : ReEnv) (fs : FS) (ld : Loader) (task : Task)
    (s : Settings) (sd : String) : List (List (String × PVal)) :=
  loadedDictsOfWalk env fs ld task.role.isSome s.matcher
    (ignoreCollPatterns s.ignore_files) (traverseDirDepth fs sd s.depth)

/-! ### Concrete fixtures used by witnesses and counterexamples -/

/-- An `re` model where every pattern is valid and no search matches. -/
def envTriv : ReEnv := ⟨fun _ => true, fun _ _ => false⟩

/-- A filesystem with three directories under `/d` (walk listed unsorted)
and every path existing. -/
def fsC4 : FS :=
  ⟨fun _ => [("/d/b", ["y2", "y1"]), ("/d", ["x"]), ("/d/c", ["z"])], fun _ => true⟩

/-- A loader that parses every file to the empty mapping. -/
def ldEmptyDict : Loader := ⟨fun p => (p, true), fun _ _ => PVal.vdict []⟩

/-- A one-directory, one-file filesystem where everything exists. -/
def fsOne : FS := ⟨fun _ => [("/d", ["a.yml"])], fun _ => true⟩

/-- An `re` model where only the formatted pattern `($` is invalid, and
`ml$` matches exactly the filename `a.ml`. -/
def envC7 : ReEnv := ⟨fun pat => pat ≠ "($", fun pat s => pat = "ml$" && s = "a.ml"⟩

/-- An `re` model where only the pattern `(` is invalid and nothing
matches. -/
def envParen : ReEnv := ⟨fun pat => pat ≠ "(", fun _ _ => false⟩

/-- A loader that parses every file to a one-key mapping but flags its
content as not safe to log. -/
def ldC2 : Loader := ⟨fun p => (p, false), fun _ _ => PVal.vdict [("k", PVal.vint 1)]⟩

/-- A loader that parses every file to a list (not a mapping). -/
def ldList : Loader := ⟨fun p => (p, true), fun _ _ => PVal.vlist []⟩

/-- A task whose arguments hold an unrecognized key. -/
def taskC5 : Task := ⟨[("bogus", .vint 1), ("dir", .vstr "/d")], "ds5", none⟩

/-- A task whose `files_matching` value is the invalid pattern `(`. -/
def taskC6 : Task := ⟨[("dir", .vstr "/d"), ("files_matching", .vstr "(")], "ds6", none⟩

/-- A task whose `ignore_files` value is a dict. -/
def taskC8 : Task :=
  ⟨[("dir", .vstr "/d"), ("ignore_files", .vdict [("a.yml", "1")])], "ds8", none⟩

/-- An `re` model for the C8 fixture: everything valid, and the only
match is the end-anchored dict-key pattern `a.yml$` against `a.yml`. -/
def envC8 : ReEnv := ⟨fun _ => true, fun pat s => pat = "a.yml$" && s = "a.yml"⟩

/-- One directory holding a documentation file and two data files. -/
def fsC8 : FS := ⟨fun _ => [("/d", ["README.md", "a.yml", "b.yml"])], fun _ => true⟩

/-- A loader giving each of the three C8 fixture files its own mapping. -/
def ldC8 : Loader :=
  ⟨fun p => (p, true), fun data _ =>
    if data = "/d/README.md" then .vdict [("r", .vint 1)]
    else if data = "/d/a.yml" then .vdict [("a", .vint 2)]
    else .vdict [("b", .vint 3)]⟩

/-- The result returned on the C1 counterexample fixture. -/
def resC1 : RunResult :=
  ⟨some true, some "/d/a.yml must be stored as a dictionary/hash", some [], some true⟩

/-- A task with no `dir` argument (only a `name`). -/
def taskC9 : Task := ⟨[("name", .vstr "nm")], "RAWDS", none⟩

/-- A two-directory tree (walk listed unsorted) where everything exists. -/
def fsC3 : FS :=
  ⟨fun _ => [("/d/sub", ["b.yml"]), ("/d", ["c.yml", "a.yml"])], fun _ => true⟩

/-- A loader giving each C3 fixture file its own mapping, with the key `x`
repeated between `a.yml` and `c.yml` and the key `y` between `a.yml` and
`sub/b.yml`. -/
def ldC3 : Loader :=
  ⟨fun p => (p, true), fun data _ =>
    if data = "/d/a.yml" then .vdict [("x", .vint 1), ("y", .vint 2)]
    else if data = "/d/c.yml" then .vdict [("x", .vint 3)]
    else .vdict [("y", .vint 4), ("z", .vint 5)]⟩

/-- The C3 fixture task: just `dir: /d`. -/
def taskC3 : Task := ⟨[("dir", .vstr "/d")], "ds3", none⟩

/-- The settings `_set_args` resolves for the C3 fixture task. -/
def settingsC3 : Settings := ⟨none, some (.vstr "/d"), 0, none, none, .pats IGNORE_FILES⟩

/-- The merged mapping of the C3 fixture invocation. -/
def factsC3 : List (String × PVal) := [("x", .vint 3), ("y", .vint 4), ("z", .vint 5)]

/-- The result of the C3 fixture invocation. -/
def resC3 : RunResult := ⟨none, none, some factsC3, some true⟩

/-! ### Dictionary lemmas -/

theorem dictGet_dictSet {α : Type} (d : List (String × α)) (k k' : String) (v : α) :
    dictGet (dictSet d k v) k' = if k' = k then some v else dictGet d k' := by
  induction d with
  | nil =>
    by_cases h : k' = k
    · simp [dictSet, dictGet, h]
    · simp [dictSet, dictGet, h, Ne.symm h]
  | cons hd t ih =>
    obtain ⟨a, b⟩ := hd
    by_cases hak : a = k
    · subst hak
      by_cases h : k' = a
      · simp [dictSet, dictGet, h]
      · simp [dictSet, dictGet, h, Ne.symm h]
    · by_cases h : a = k'
      · subst h
        simp [dictSet, dictGet, hak, Ne.symm hak]
      · simp [dictSet, dictGet, hak, h, Ne.symm h, ih]

theorem fst_dictSet {α : Type} (d : List (String × α)) (k : String) (v : α) :
    (dictSet d k v).map Prod.fst =
      if k ∈ d.map Prod.fst then d.map Prod.fst else d.map Prod.fst ++ [k] := by
  induction d with
  | nil => simp [dictSet]
  | cons hd t ih =>
    obtain ⟨a, b⟩ := hd
    by_cases hak : a = k
    · simp [dictSet, hak]
    · simp only [dictSet, if_neg hak, List.map_cons, List.mem_cons]
      rw [ih]
      by_cases hk : k ∈ t.map Prod.fst
      · simp [hk]
      · simp [hk, Ne.symm hak]

theorem keysNodup_dictSet {α : Type} (d : List (String × α)) (k : String) (v : α)
    (h : keysNodup d) : keysNodup (dictSet d k v) := by
  unfold keysNodup at *
  rw [fst_dictSet]
  by_cases hk : k ∈ d.map Prod.fst
  · simpa [hk]
  · simp only [hk, if_false]
    rw [List.nodup_append]
    refine ⟨h, List.nodup_singleton k, ?_⟩
    intro a ha hb
    rw [List.mem_singleton] at hb
    exact hk (hb ▸ ha)

theorem keysNodup_dictUpdate {α : Type} (d e : List (String × α))
    (h : keysNodup d) : keysNodup (dictUpdate d e) := by
  induction e generalizing d with
  | nil => exact h
  | cons p t ih =>
    simpa [dictUpdate, List.foldl_cons] using ih (dictSet d p.1 p.2) (keysNodup_dictSet d p.1 p.2 h)

theorem dictGet_eq_none_of_not_mem {α : Type} (d : List (String × α)) (k : String)
    (h : k ∉ d.map Prod.fst) : dictGet d k = none := by
  induction d with
  | nil => rfl
  | cons hd t ih =>
    obtain ⟨a, b⟩ := hd
    simp only [List.map_cons, List.mem_cons] at h
    push_neg at h
    simp [dictGet, Ne.symm h.1, ih h.2]

theorem dictGet_dictUpdate {α : Type} (d e : List (String × α)) (k : String)
    (he : keysNodup e) :
    dictGet (dictUpdate d e) k = (dictGet e k).or (dictGet d k) := by
  induction e generalizing d with
  | nil => simp [dictUpdate, dictGet]
  | cons p t ih =>
    obtain ⟨a, b⟩ := p
    unfold keysNodup at he
    simp only [List.map_cons, List.nodup_cons] at he
    have step : dictUpdate d ((a, b) :: t) = dictUpdate (dictSet d a b) t := by
      simp [dictUpdate, List.foldl_cons]
    rw [step, ih (dictSet d a b) he.2, dictGet_dictSet]
    by_cases hk : k = a
    · subst hk
      rw [dictGet_eq_none_of_not_mem t k he.1]
      simp [dictGet]
    · simp [dictGet, hk, Ne.symm hk]

theorem findSome?_append {α β : Type} (f : α → Option β) (l₁ l₂ : List α) :
    (l₁ ++ l₂).findSome? f = (l₁.findSome? f).or (l₂.findSome? f) := by
  induction l₁ with
  | nil => simp
  | cons a t ih =>
    simp only [List.cons_append, List.findSome?_cons]
    cases f a <;> simp [ih]

theorem dictGet_foldl_dictUpdate {α : Type} (es : List (List (String × α)))
    (d : List (String × α)) (k : String) (hs : ∀ e ∈ es, keysNodup e) :
    dictGet (es.foldl dictUpdate d) k =
      (es.reverse.findSome? (fun e => dictGet e k)).or (dictGet d k) := by
  induction es generalizing d with
  | nil => simp
  | cons e t ih =>
    have hnd : keysNodup e := hs e (List.mem_cons_self e t)
    have hts : ∀ x ∈ t, keysNodup x := fun x hx => hs x (List.mem_cons_of_mem e hx)
    rw [List.foldl_cons, ih (dictUpdate d e) hts, dictGet_dictUpdate d e k hnd,
      List.reverse_cons, findSome?_append, Option.or_assoc]
    congr 1
    simp [List.findSome?_cons]
    cases dictGet e k <;> simp

/-! ### Traversal lemmas -/

theorem traverseGo_zero (l : List (String × List String)) (c : Int) :
    traverseGo 0 c l = l.map (fun e => (e.1, sortStrs e.2)) := by
  induction l generalizing c with
  | nil => rfl
  | cons hd t ih =>
    obtain ⟨root, files⟩ := hd
    simp [traverseGo, ih]

theorem traverseGo_of_ne_zero (d : Int) (hd : d ≠ 0)
    (l : List (String × List String)) (c : Int) :
    traverseGo d c l = ((l.take (d - c).toNat).map (fun e => (e.1, sortStrs e.2))) := by
  induction l generalizing c with
  | nil => simp [traverseGo]
  | cons hd t ih =>
    obtain ⟨root, files⟩ := hd
    by_cases hc : c + 1 ≤ d
    · have h1 : (d - c).toNat = (d - (c + 1)).toNat + 1 := by omega
      simp only [traverseGo, if_pos (Or.inl hc), ih (c + 1), h1, List.take_succ_cons,
        List.map_cons]
    · have h0 : (d - c).toNat = 0 := by omega
      have : ¬(c + 1 ≤ d ∨ d = 0) := by
        intro h
        rcases h with h | h
        · exact hc h
        · exact hd h
      simp [traverseGo, this, h0]

/-! ### Claim theorems -/

/-- C4: for every depth limit `d ≥ 1`, the walker yields exactly the first
`min(d, n)` entries of the walk sorted by directory path (with each entry's
filenames sorted) and nothing further — the yield list literally is that
prefix — while `d = 0` yields all `n` sorted entries. -/
theorem claim_C4_depth_cutoff (fs : FS) (sourceDir : String) (d : Int) :
    (1 ≤ d →
      traverseDirDepth fs sourceDir d =
        ((sortPairs (fs.walk sourceDir)).take d.toNat).map (fun e => (e.1, sortStrs e.2)) ∧
      (traverseDirDepth fs sourceDir d).length =
        min d.toNat (sortPairs (fs.walk sourceDir)).length) ∧
    (d = 0 →
      traverseDirDepth fs sourceDir d =
        (sortPairs (fs.walk sourceDir)).map (fun e => (e.1, sortStrs e.2)) ∧
      (traverseDirDepth fs sourceDir d).length =
        (sortPairs (fs.walk sourceDir)).length) := by
  constructor
  · intro h1
    have hne : d ≠ 0 := by omega
    have heq : traverseDirDepth fs sourceDir d =
        ((sortPairs (fs.walk sourceDir)).take d.toNat).map (fun e => (e.1, sortStrs e.2)) := by
      rw [traverseDirDepth, traverseGo_of_ne_zero d hne]
      norm_num
    refine ⟨heq, ?_⟩
    rw [heq, List.length_map, List.length_take]
  · intro h0
    subst h0
    refine ⟨traverseGo_zero _ 0, ?_⟩
    rw [traverseDirDepth, traverseGo_zero, List.length_map]

/-- Witness for C4 at a concrete three-directory tree with depth 2. -/
theorem claim_C4_depth_cutoff_witness :
    traverseDirDepth fsC4 "/d" 2 =
      ((sortPairs (fsC4.walk "/d")).take (Int.toNat 2)).map (fun e => (e.1, sortStrs e.2)) ∧
    (traverseDirDepth fsC4 "/d" 2).length =
      min (Int.toNat 2) (sortPairs (fsC4.walk "/d")).length :=
  (claim_C4_depth_cutoff fsC4 "/d" 2).1 (by decide)

/-- C10: for every negative depth value, the walker yields no directories
at all, and an invocation over an existing directory completes without
error with an empty merged mapping. -/
theorem claim_C10_negative_depth (env : ReEnv) (fs : FS) (ld : Loader)
    (p ds : String) (d : Int) (hd : d < 0) (hp : p ≠ "")
    (hex : fs.pathExists p = true) :
    traverseDirDepth fs p d = [] ∧
    run env fs ld ⟨[("dir", .vstr p), ("depth", .vint d)], ds, none⟩ =
      .ok ⟨none, none, some [], some true⟩ := by
  have hne : d ≠ 0 := by omega
  have htrav : traverseDirDepth fs p d = [] := by
    rw [traverseDirDepth, traverseGo_of_ne_zero d hne]
    have h0 : (d - 0).toNat = 0 := by omega
    rw [h0, List.take_zero, List.map_nil]
  refine ⟨htrav, ?_⟩
  have hsa : setArgs env ⟨[("dir", .vstr p), ("depth", .vint d)], ds, none⟩ =
      .ok ⟨none, some (.vstr p), d, none, none, .pats IGNORE_FILES⟩ := by
    simp [setArgs, pyGet, pyGetInt, setArgsIgnore, finishSetArgs, VALID_ARGUMENTS,
      List.find?, argTruthy, hp]
  simp [run, hsa, runWithSettings, resolveSourceDir, hex, htrav, runDirs, finalizeName]

/-- Witness for C10 at depth `-1` over an existing one-file directory. -/
theorem claim_C10_negative_depth_witness :
    traverseDirDepth fsOne "/d" (-1) = [] ∧
    run envTriv fsOne ldEmptyDict ⟨[("dir", .vstr "/d"), ("depth", .vint (-1))], "ds", none⟩ =
      .ok ⟨none, none, some [], some true⟩ :=
  claim_C10_negative_depth envTriv fsOne ldEmptyDict "/d" "ds" (-1)
    (by decide) (by decide) (by decide)

/-- Helper: when every formatted ignore pattern is valid, `_ignore_file`
returns whether any pattern's end-anchored search matches the filename. -/
theorem ignoreFile_all_valid (env : ReEnv) (pats : List String) (f : String)
    (h : ∀ p ∈ pats, env.valid (p ++ "$") = true) :
    ignoreFile env pats f = .ok (pats.any (fun p => env.search (p ++ "$") f)) := by
  induction pats with
  | nil => rfl
  | cons p t ih =>
    have hp := h p (List.mem_cons_self p t)
    have ht := fun q hq => h q (List.mem_cons_of_mem p hq)
    cases hs : env.search (p ++ "$") f <;>
      simp [ignoreFile, hp, hs, List.any_cons, ih ht]

/-- Helper: the first invalid ignore pattern that is actually evaluated
(no earlier pattern matched) raises the fatal error. -/
theorem ignoreFile_invalid (env : ReEnv) (f : String) (pre : List String)
    (p : String) (post : List String)
    (hinv : env.valid (p ++ "$") = false)
    (hpre : ∀ q ∈ pre, env.valid (q ++ "$") = true ∧ env.search (q ++ "$") f = false) :
    ignoreFile env (pre ++ p :: post) f =
      .error ("Invalid regular expression: " ++ p) := by
  induction pre with
  | nil => simp [ignoreFile, hinv]
  | cons q t ih =>
    have hq := hpre q (List.mem_cons_self q t)
    simp [ignoreFile, hq.1, hq.2,
      ih (fun r hr => hpre r (List.mem_cons_of_mem q hr))]

/-- C7: ignore patterns are applied as an end-anchored search (the
formatted pattern is the raw pattern with `$` appended) against the bare
filename, a filename is skipped when any pattern matches, and a malformed
pattern — when reached — raises the fatal invalid-expression error rather
than being skipped; the skip is independent of the file's full path. -/
theorem claim_C7_ignore_semantics (env : ReEnv) (pats : List String) (f : String) :
    ((∀ p ∈ pats, env.valid (p ++ "$") = true) →
      ignoreFile env pats f = .ok (pats.any (fun p => env.search (p ++ "$") f))) ∧
    (∀ pre p post, pats = pre ++ p :: post → env.valid (p ++ "$") = false →
      (∀ q ∈ pre, env.valid (q ++ "$") = true ∧ env.search (q ++ "$") f = false) →
      ignoreFile env pats f = .error ("Invalid regular expression: " ++ p)) ∧
    (∀ (fs : FS) (ld : Loader) (showC : Bool) (root : String),
      (∀ p ∈ pats, env.valid (p ++ "$") = true) →
      pats.any (fun p => env.search (p ++ "$") f) = true →
      fs.pathExists (pathJoin root f) = true →
      loadFiles env fs ld false none pats showC root [f] = .ok ⟨[], false, "", showC⟩) := by
  refine ⟨fun h => ignoreFile_all_valid env pats f h, ?_, ?_⟩
  · intro pre p post hsplit hinv hpre
    subst hsplit
    exact ignoreFile_invalid env f pre p post hinv hpre
  · intro fs ld showC root hvalid hmatch hex
    have hig : ignoreFile env pats f = .ok true := by
      rw [ignoreFile_all_valid env pats f hvalid, hmatch]
    simp [loadFiles, loadFilesGo, hex, hig]

/-- Witness for C7: a matching pattern skips the file, an invalid pattern
raises, and a matched bare filename suppresses the load. -/
theorem claim_C7_ignore_semantics_witness :
    ignoreFile envC7 ["ml"] "a.ml" = .ok true ∧
    ignoreFile envC7 ["ml", "("] "b.txt" = .error "Invalid regular expression: (" ∧
    loadFiles envC7 fsOne ldEmptyDict false none ["ml"] true "/d" ["a.ml"] =
      .ok ⟨[], false, "", true⟩ := by
  refine ⟨?_, ?_, ?_⟩
  · rw [(claim_C7_ignore_semantics envC7 ["ml"] "a.ml").1 (by decide)]
    rfl
  · exact (claim_C7_ignore_semantics envC7 ["ml", "("] "b.txt").2.1
      ["ml"] "(" [] rfl (by decide) (by decide)
  · exact (claim_C7_ignore_semantics envC7 ["ml"] "a.ml").2.2
      fsOne ldEmptyDict true "/d" (by decide) (by decide) (by decide)

/-- C5 (evaluation at the failing input): with an unrecognized argument
key, `_set_args` returns the failure dict — which `run` discards — and the
invocation then faults with `AttributeError` on the never-assigned
`self.source_dir`, instead of failing with the invalid-option message. -/
theorem claim_C5_invalid_option_discarded (env : ReEnv) (fs : FS) (ld : Loader) :
    setArgs env taskC5 = .invalidOptionReturn "bogus is not a valid option in debug" ∧
    run env fs ld taskC5 = .error .attributeError :=
  ⟨rfl, rfl⟩

/-- C8 (evaluation at the failing input): a dict-valued `ignore_files`
makes `_set_args` return a failure dict that `run` discards; the
invocation then proceeds, using the dict's keys as the only ignore
patterns (the documentation file `README.md` is loaded because the
default ignore set was never appended) and succeeds instead of failing. -/
theorem claim_C8_ignore_dict_not_rejected :
    setArgs envC8 taskC8 = .ignoreDictReturn ("a.yml must be a list")
      ⟨none, some (.vstr "/d"), 0, none, none, .dictColl [("a.yml", "1")]⟩ ∧
    run envC8 fsC8 ldC8 taskC8 =
      .ok ⟨none, none, some [("r", .vint 1), ("b", .vint 3)], some true⟩ :=
  ⟨rfl, rfl⟩

/-- C2 (evaluation at the failing input): when the only loaded file's
safe-to-log flag is false, the result's `_ansible_no_log` field is
`false` (the code assigns `self.show_content` directly), not `true` as
the claim requires of a log-suppression flag. -/
theorem claim_C2_no_log_polarity :
    run envTriv fsOne ldC2 ⟨[("dir", .vstr "/d")], "ds", none⟩ =
      .ok ⟨none, none, some [("k", .vint 1)], some false⟩ :=
  rfl

/-- C6 counterexample: an invalid `files_matching` pattern makes
`_set_args` raise at resolution time (the `re.compile` call), so an error
is raised during argument resolution, contrary to the claim that invalid
patterns surface only at match time. -/
theorem claim_C6_counterexample :
    setArgs envParen taskC6 = .reCompileError "(" ∧
    run envParen fsOne ldEmptyDict taskC6 = .error (.reError "(") :=
  ⟨rfl, rfl⟩

/-- C6 amended: a truthy `files_matching` value whose formatted pattern is
invalid makes `_set_args` raise the pattern-compilation error during
argument resolution, and the whole invocation aborts with it — nothing is
deferred to match time. -/
theorem claim_C6_amended_compile_at_resolution (env : ReEnv) (fs : FS) (ld : Loader)
    (task : Task) (v : ArgVal)
    (hkeys : task.args.find? (fun p => !(VALID_ARGUMENTS.contains p.1)) = none)
    (hfm : pyGet task.args "files_matching" = some v)
    (ht : argTruthy v = true)
    (hinv : env.valid (argFormat v) = false) :
    setArgs env task = .reCompileError (argFormat v) ∧
    run env fs ld task = .error (.reError (argFormat v)) := by
  have hsa : setArgs env task = .reCompileError (argFormat v) := by
    unfold setArgs
    rw [hkeys]
    simp [hfm, ht, hinv]
  exact ⟨hsa, by simp [run, hsa]⟩

/-- C9: when the recognized-keys check passes, any `files_matching`
pattern compiles, `ignore_files` is a string or a sequence, and the `dir`
argument is absent or falsy, `_set_args` raises the missing-directory
error — whose message ends with the raw task definition — and the whole
invocation aborts with it, for every filesystem and loader (so before any
filesystem access). -/
theorem claim_C9_missing_dir (env : ReEnv) (fs : FS) (ld : Loader) (task : Task)
    (hkeys : task.args.find? (fun p => !(VALID_ARGUMENTS.contains p.1)) = none)
    (hfm : ∀ v, pyGet task.args "files_matching" = some v → argTruthy v = true →
      env.valid (argFormat v) = true)
    (hig : ∀ v, pyGet task.args "ignore_files" = some v →
      (∃ s, v = ArgVal.vstr s) ∨ (∃ xs, v = ArgVal.vlist xs))
    (hdir : ((pyGet task.args "dir").map argTruthy).getD false = false) :
    setArgs env task = .missingDirError (noDirMsgHead ++ task.ds) ∧
    run env fs ld task = .error (.ansibleError (noDirMsgHead ++ task.ds)) := by
  have hfin : ∀ name depth fm m xs,
      finishSetArgs task name (pyGet task.args "dir") depth fm m xs =
        .missingDirError (noDirMsgHead ++ task.ds) := by
    intro name depth fm m xs
    simp [finishSetArgs, hdir]
  have hsi : ∀ name depth fm m,
      setArgsIgnore task name (pyGet task.args "dir") depth fm m =
        .missingDirError (noDirMsgHead ++ task.ds) := by
    intro name depth fm m
    unfold setArgsIgnore
    cases hv : pyGet task.args "ignore_files" with
    | none => exact hfin name depth fm m IGNORE_FILES
    | some v =>
      rcases hig v hv with ⟨s, rfl⟩ | ⟨xs, rfl⟩
      · exact hfin name depth fm m (pySplit s ++ IGNORE_FILES)
      · exact hfin name depth fm m (xs ++ IGNORE_FILES)
  have hsa : setArgs env task = .missingDirError (noDirMsgHead ++ task.ds) := by
    unfold setArgs
    rw [hkeys]
    cases hv : pyGet task.args "files_matching" with
    | none => exact hsi _ _ _ none
    | some v =>
      cases ht : argTruthy v with
      | false => simp only [ht, Bool.false_eq_true, if_false]; exact hsi _ _ _ none
      | true =>
        simp only [ht, if_true, hfm v hv ht]
        exact hsi _ _ _ (some (argFormat v))
  exact ⟨hsa, by simp [run, hsa]⟩

/-- Witness for C9: a task whose arguments hold only a `name`. -/
theorem claim_C9_missing_dir_witness :
    setArgs envTriv taskC9 = .missingDirError (noDirMsgHead ++ "RAWDS") ∧
    run envTriv fsOne ldEmptyDict taskC9 = .error (.ansibleError (noDirMsgHead ++ "RAWDS")) :=
  claim_C9_missing_dir envTriv fsOne ldEmptyDict taskC9 rfl
    (fun _ hv => nomatch hv) (fun _ hv => nomatch hv) (by decide)

/-- Helper: once the failure flag is set, the rest of the `_load_files`
loop changes nothing. -/
theorem loadFilesGo_of_failed (env : ReEnv) (fs : FS) (ld : Loader) (hasRole : Bool)
    (matcher : Option String) (pats : List String) (root : String) :
    ∀ (files : List String) (st : LoadState), st.failed = true →
      loadFilesGo env fs ld hasRole matcher pats root files st = .ok st := by
  intro files
  induction files with
  | nil => intro st _; rfl
  | cons f rest ih =>
    intro st hf
    simp only [loadFilesGo]
    split
    · exact ih st hf
    · simp [hf, ih st hf]

/-- Helper: the `_load_files` loop on a not-yet-failed state is described
file-by-file by `fileStep`. -/
theorem loadFilesGo_cons_char (env : ReEnv) (fs : FS) (ld : Loader) (hasRole : Bool)
    (matcher : Option String) (pats : List String) (root f : String)
    (rest : List String) (st : LoadState) (hst : st.failed = false) :
    loadFilesGo env fs ld hasRole matcher pats root (f :: rest) st =
      match fileStep env fs ld hasRole matcher pats root f with
      | .skip => loadFilesGo env fs ld hasRole matcher pats root rest st
      | .load b es => loadFilesGo env fs ld hasRole matcher pats root rest
          { st with results := dictUpdate st.results es,
                    showContent := st.showContent && b }
      | .failStep b => loadFilesGo env fs ld hasRole matcher pats root rest
          { st with failed := true,
                    err_msg := pathJoin root f ++ " must be stored as a dictionary/hash",
                    showContent := st.showContent && b }
      | .raiseStep msg => .error (.ansibleError msg) := by
  simp only [loadFilesGo, fileStep]
  by_cases h1 : hasRole = true ∧ f = "main.yml"
  · simp [h1]
  · rcases matcher with _ | pat
    · by_cases hpe : fs.pathExists (pathJoin root f) = true
      · rcases hig : ignoreFile env pats f with m | b
        · simp [h1, hst, hpe, hig]
        · cases b
          · cases hl : ld.load (ld.fileContents (pathJoin root f)).1
                (ld.fileContents (pathJoin root f)).2 <;>
              cases hb : (ld.fileContents (pathJoin root f)).2 <;>
              simp [h1, hst, hpe, hig, hl, hb]
          · simp [h1, hst, hpe, hig]
      · simp [h1, hst, hpe]
    · cases hs : env.search pat f
      · simp [h1, hst, hs]
      · by_cases hpe : fs.pathExists (pathJoin root f) = true
        · rcases hig : ignoreFile env pats f with m | b
          · simp [h1, hst, hs, hpe, hig]
          · cases b
            · cases hl : ld.load (ld.fileContents (pathJoin root f)).1
                  (ld.fileContents (pathJoin root f)).2 <;>
                cases hb : (ld.fileContents (pathJoin root f)).2 <;>
                simp [h1, hst, hs, hpe, hig, hl, hb]
            · simp [h1, hst, hs, hpe, hig]
        · simp [h1, hst, hs, hpe]

/-- Helper: a file on which `_load_files` records a failure parses to a
value that is neither `None` nor a mapping. -/
theorem fileStep_failStep_nonMapping (env : ReEnv) (fs : FS) (ld : Loader)
    (hasRole : Bool) (matcher : Option String) (pats : List String)
    (root f : String) (b : Bool)
    (h : fileStep env fs ld hasRole matcher pats root f = .failStep b) :
    loadNonMapping ld (pathJoin root f) = true := by
  unfold loadNonMapping
  unfold fileStep at h
  by_cases h1 : hasRole = true ∧ f = "main.yml"
  · simp [h1] at h
  · rcases matcher with _ | pat
    · by_cases hpe : fs.pathExists (pathJoin root f) = true
      · rcases hig : ignoreFile env pats f with m | bb
        · simp [h1, hpe, hig] at h
        · cases bb
          · cases hl : ld.load (ld.fileContents (pathJoin root f)).1
                (ld.fileContents (pathJoin root f)).2 <;>
              (try simp [h1, hpe, hig, hl] at h) <;> simp
          · simp [h1, hpe, hig] at h
      · simp [h1, hpe] at h
    · cases hs : env.search pat f
      · simp [h1, hs] at h
      · by_cases hpe : fs.pathExists (pathJoin root f) = true
        · rcases hig : ignoreFile env pats f with m | bb
          · simp [h1, hs, hpe, hig] at h
          · cases bb
            · cases hl : ld.load (ld.fileContents (pathJoin root f)).1
                  (ld.fileContents (pathJoin root f)).2 <;>
                (try simp [h1, hs, hpe, hig, hl] at h) <;> simp
            · simp [h1, hs, hpe, hig] at h
        · simp [h1, hs, hpe] at h

/-- Helper: when `_load_files` ends with the failure flag set, either it
was set on entry with the message unchanged, or the message names a file
path whose loaded value is not a mapping. -/
theorem loadFilesGo_failure (env : ReEnv) (fs : FS) (ld : Loader) (hasRole : Bool)
    (matcher : Option String) (pats : List String) (root : String) :
    ∀ (files : List String) (st out : LoadState),
      loadFilesGo env fs ld hasRole matcher pats root files st = .ok out →
      out.failed = true →
      (st.failed = true ∧ out.err_msg = st.err_msg) ∨
      (∃ fp, out.err_msg = fp ++ " must be stored as a dictionary/hash" ∧
        loadNonMapping ld fp = true) := by
  intro files
  induction files with
  | nil =>
    intro st out h hf
    simp only [loadFilesGo] at h
    injection h with h2
    subst h2
    exact Or.inl ⟨hf, rfl⟩
  | cons f rest ih =>
    intro st out h hf
    cases hstf : st.failed with
    | true =>
      rw [loadFilesGo_of_failed env fs ld hasRole matcher pats root (f :: rest) st hstf] at h
      injection h with h2
      subst h2
      exact Or.inl ⟨rfl, rfl⟩
    | false =>
      rw [loadFilesGo_cons_char env fs ld hasRole matcher pats root f rest st hstf] at h
      cases hfs2 : fileStep env fs ld hasRole matcher pats root f with
      | skip =>
        rw [hfs2] at h
        rcases ih st out h hf with ⟨ha, _⟩ | hr
        · rw [hstf] at ha
          exact absurd ha (by simp)
        · exact Or.inr hr
      | load bb es =>
        rw [hfs2] at h
        rcases ih _ out h hf with ⟨ha, _⟩ | hr
        · have ha2 : st.failed = true := ha
          rw [hstf] at ha2
          exact absurd ha2 (by simp)
        · exact Or.inr hr
      | failStep bb =>
        rw [hfs2] at h
        rcases ih _ out h hf with ⟨_, hb2⟩ | hr
        · exact Or.inr ⟨pathJoin root f, hb2,
            fileStep_failStep_nonMapping env fs ld hasRole matcher pats root f bb hfs2⟩
        · exact Or.inr hr
      | raiseStep m =>
        rw [hfs2] at h
        exact absurd h (by simp)

/-- Helper: a `_load_files` call that never failed produced exactly the
fold of `dict.update` over the loaded files' dictionaries, in file
order. -/
theorem loadFilesGo_results (env : ReEnv) (fs : FS) (ld : Loader) (hasRole : Bool)
    (matcher : Option String) (pats : List String) (root : String) :
    ∀ (files : List String) (st out : LoadState),
      loadFilesGo env fs ld hasRole matcher pats root files st = .ok out →
      st.failed = false → out.failed = false →
      out.results =
        (loadedDictsOfDir env fs ld hasRole matcher pats root files).foldl
          dictUpdate st.results := by
  intro files
  induction files with
  | nil =>
    intro st out h _ _
    simp only [loadFilesGo] at h
    injection h with h2
    subst h2
    rfl
  | cons f rest ih =>
    intro st out h hst hout
    rw [loadFilesGo_cons_char env fs ld hasRole matcher pats root f rest st hst] at h
    cases hfs2 : fileStep env fs ld hasRole matcher pats root f with
    | skip =>
      rw [hfs2] at h
      have hih := ih st out h hst hout
      simp only [loadedDictsOfDir, List.filterMap_cons, loadedDictOfFile, hfs2] at hih ⊢
      exact hih
    | load bb es =>
      rw [hfs2] at h
      have hih := ih _ out h hst hout
      simp only [loadedDictsOfDir, List.filterMap_cons, loadedDictOfFile, hfs2,
        List.foldl_cons] at hih ⊢
      exact hih
    | failStep bb =>
      rw [hfs2] at h
      dsimp only at h
      rw [loadFilesGo_of_failed env fs ld hasRole matcher pats root rest
        { st with failed := true,
                  err_msg := pathJoin root f ++ " must be stored as a dictionary/hash",
                  showContent := st.showContent && bb } rfl] at h
      injection h with h2
      subst h2
      simp at hout
    | raiseStep m =>
      rw [hfs2] at h
      exact absurd h (by simp)

/-- Helper: folding `dict.update` preserves key uniqueness. -/
theorem keysNodup_foldl_dictUpdate {α : Type} (es : List (List (String × α)))
    (d : List (String × α)) (h : keysNodup d) : keysNodup (es.foldl dictUpdate d) := by
  induction es generalizing d with
  | nil => exact h
  | cons e t ih => exact ih (dictUpdate d e) (keysNodup_dictUpdate d e h)

/-- Helper: when the directory loop of `run` breaks with the failure flag
set, the recorded message names a file path whose loaded value is not a
mapping. -/
theorem runDirs_failure (env : ReEnv) (fs : FS) (ld : Loader) (hasRole : Bool)
    (matcher : Option String) (pats : List String) :
    ∀ (entries : List (String × List String)) (st out : RunState),
      runDirs env fs ld hasRole matcher pats entries st = .ok out →
      st.failedFlag = false → out.failedFlag = true →
      ∃ fp, out.message = fp ++ " must be stored as a dictionary/hash" ∧
        loadNonMapping ld fp = true := by
  intro entries
  induction entries with
  | nil =>
    intro st out h hst hout
    simp only [runDirs] at h
    injection h with h2
    subst h2
    rw [hst] at hout
    exact absurd hout (by simp)
  | cons entry rest ih =>
    obtain ⟨root, files⟩ := entry
    intro st out h hst hout
    simp only [runDirs] at h
    cases hlf : loadFiles env fs ld hasRole matcher pats st.showContent root files with
    | error e =>
      rw [hlf] at h
      exact absurd h (by simp)
    | ok fout =>
      rw [hlf] at h
      dsimp only at h
      cases hff : fout.failed with
      | false =>
        rw [hff] at h
        simp only [Bool.not_false, if_true] at h
        exact ih _ out h hst hout
      | true =>
        rw [hff] at h
        simp only [Bool.not_true, Bool.false_eq_true, if_false] at h
        injection h with h2
        subst h2
        rcases loadFilesGo_failure env fs ld hasRole matcher pats root files
            ⟨[], false, "", st.showContent⟩ fout hlf hff with ⟨ha, _⟩ | ⟨fp, herr, hnm⟩
        · exact absurd ha (by simp)
        · exact ⟨fp, herr, hnm⟩

/-- Helper: a completed, never-failed directory loop holds exactly the
fold of `dict.update` over all loaded dictionaries in traversal order;
expressed through `dictGet`, the value at each key is the last loaded
value for that key. -/
theorem runDirs_results (env : ReEnv) (fs : FS) (ld : Loader) (hasRole : Bool)
    (matcher : Option String) (pats : List String) :
    ∀ (entries : List (String × List String)) (st out : RunState),
      runDirs env fs ld hasRole matcher pats entries st = .ok out →
      st.failedFlag = false → out.failedFlag = false →
      (∀ e ∈ loadedDictsOfWalk env fs ld hasRole matcher pats entries, keysNodup e) →
      ∀ k, dictGet out.results k =
        ((loadedDictsOfWalk env fs ld hasRole matcher pats entries).reverse.findSome?
            (fun e => dictGet e k)).or (dictGet st.results k) := by
  intro entries
  induction entries with
  | nil =>
    intro st out h _ _ _ k
    simp only [runDirs] at h
    injection h with h2
    subst h2
    simp [loadedDictsOfWalk]
  | cons entry rest ih =>
    obtain ⟨root, files⟩ := entry
    intro st out h hst hout hnd k
    simp only [runDirs] at h
    cases hlf : loadFiles env fs ld hasRole matcher pats st.showContent root files with
    | error e =>
      rw [hlf] at h
      exact absurd h (by simp)
    | ok fout =>
      rw [hlf] at h
      dsimp only at h
      cases hff : fout.failed with
      | true =>
        rw [hff] at h
        simp only [Bool.not_true, Bool.false_eq_true, if_false] at h
        injection h with h2
        subst h2
        simp at hout
      | false =>
        rw [hff] at h
        simp only [Bool.not_false, if_true] at h
        have hnd_head : ∀ e ∈ loadedDictsOfDir env fs ld hasRole matcher pats root files,
            keysNodup e := by
          intro e he
          refine hnd e ?_
          simp only [loadedDictsOfWalk, List.mem_append]
          exact Or.inl he
        have hnd_rest : ∀ e ∈ loadedDictsOfWalk env fs ld hasRole matcher pats rest,
            keysNodup e := by
          intro e he
          refine hnd e ?_
          simp only [loadedDictsOfWalk, List.mem_append]
          exact Or.inr he
        have hfr : fout.results =
            (loadedDictsOfDir env fs ld hasRole matcher pats root files).foldl
              dictUpdate [] :=
          loadFilesGo_results env fs ld hasRole matcher pats root files
            ⟨[], false, "", st.showContent⟩ fout hlf rfl hff
        have hndfr : keysNodup fout.results := by
          rw [hfr]
          exact keysNodup_foldl_dictUpdate _ [] List.nodup_nil
        have hih := ih _ out h hst hout hnd_rest k
        have hstep : dictGet (dictUpdate st.results fout.results) k =
            ((loadedDictsOfDir env fs ld hasRole matcher pats root files).reverse.findSome?
                (fun e => dictGet e k)).or (dictGet st.results k) := by
          rw [dictGet_dictUpdate st.results fout.results k hndfr, hfr,
            dictGet_foldl_dictUpdate _ [] k hnd_head]
          simp [dictGet, Option.or_assoc]
        have hih2 : dictGet out.results k =
            ((loadedDictsOfWalk env fs ld hasRole matcher pats rest).reverse.findSome?
                (fun e => dictGet e k)).or (dictGet (dictUpdate st.results fout.results) k) :=
          hih
        rw [hih2, hstep]
        simp only [loadedDictsOfWalk, List.reverse_append, findSome?_append,
          Option.or_assoc]

/-- C1 counterexample: on a one-file directory whose file parses to a
list, the result carries `failed = true` and the failure message, yet the
`ansible_facts` key is present as well (holding the pre-failure
accumulator), contradicting the claimed absence of `ansible_facts` and
the claimed either-outcome invariant. -/
theorem claim_C1_counterexample :
    run envTriv fsOne ldList ⟨[("dir", .vstr "/d")], "ds1", none⟩ = .ok resC1 ∧
    resC1.failed = some true ∧ resC1.message.isSome = true ∧
    resC1.ansible_facts.isSome = true :=
  ⟨rfl, rfl, rfl, rfl⟩

/-- C1 (amended): every invocation over an existing directory returns a
result that always carries `ansible_facts` and `_ansible_no_log`; when it
failed, the message names a file path whose loaded value is not a
mapping (and `ansible_facts` is still present); when it did not fail, no
message is present. -/
theorem claim_C1_amended_failure_result (env : ReEnv) (fs : FS) (ld : Loader)
    (task : Task) (s : Settings) (sd : String) (r : RunResult)
    (hsa : setArgs env task = .ok s)
    (hres : resolveSourceDir task.role s.source_dir = .ok sd)
    (hex : fs.pathExists sd = true)
    (hrun : run env fs ld task = .ok r) :
    r.ansible_facts.isSome = true ∧ r.no_log.isSome = true ∧
    (r.failed = some true →
      ∃ fp, r.message = some (fp ++ " must be stored as a dictionary/hash") ∧
        loadNonMapping ld fp = true) ∧
    (r.failed = none → r.message = none) := by
  unfold run at hrun
  rw [hsa] at hrun
  dsimp only at hrun
  unfold runWithSettings at hrun
  rw [hres] at hrun
  dsimp only at hrun
  rw [if_pos hex] at hrun
  cases hrd : runDirs env fs ld task.role.isSome s.matcher
      (ignoreCollPatterns s.ignore_files) (traverseDirDepth fs sd s.depth)
      ⟨[], false, "", true⟩ with
  | error e =>
    rw [hrd] at hrun
    exact absurd hrun (by simp)
  | ok st =>
    rw [hrd] at hrun
    dsimp only at hrun
    injection hrun with h2
    subst h2
    refine ⟨rfl, rfl, ?_, ?_⟩
    · intro hfail
      cases hffl : st.failedFlag with
      | false =>
        have hfail2 : (if st.failedFlag then some true else none) = some true := hfail
        rw [hffl] at hfail2
        simp at hfail2
      | true =>
        rcases runDirs_failure env fs ld task.role.isSome s.matcher
            (ignoreCollPatterns s.ignore_files) (traverseDirDepth fs sd s.depth)
            ⟨[], false, "", true⟩ st hrd rfl hffl with ⟨fp, hmsg, hnm⟩
        refine ⟨fp, ?_, hnm⟩
        simp [hmsg]
    · intro hnone
      cases hffl : st.failedFlag with
      | true =>
        have hnone2 : (if st.failedFlag then some true else none) = none := hnone
        rw [hffl] at hnone2
        simp at hnone2
      | false => simp

/-- Witness for the amended C1 on the list-parsing one-file fixture. -/
theorem claim_C1_amended_witness :
    resC1.ansible_facts.isSome = true ∧ resC1.no_log.isSome = true ∧
    (resC1.failed = some true →
      ∃ fp, resC1.message = some (fp ++ " must be stored as a dictionary/hash") ∧
        loadNonMapping ldList fp = true) ∧
    (resC1.failed = none → resC1.message = none) :=
  claim_C1_amended_failure_result envTriv fsOne ldList
    ⟨[("dir", .vstr "/d")], "ds1", none⟩
    ⟨none, some (.vstr "/d"), 0, none, none, .pats IGNORE_FILES⟩ "/d" resC1
    rfl rfl rfl rfl

/-- C3: on a clean, non-failing invocation (no `name` nesting), the merged
mapping's value at each key is the value of that key in the last loaded
file (in traversal order) defining it, and a key is present iff some
loaded file defines it — the key set is the union of the loaded files'
key sets. -/
theorem claim_C3_last_writer_wins (env : ReEnv) (fs : FS) (ld : Loader)
    (task : Task) (s : Settings) (sd : String) (r : RunResult)
    (facts : List (String × PVal))
    (hsa : setArgs env task = .ok s)
    (hname : s.return_results_as_name = none)
    (hres : resolveSourceDir task.role s.source_dir = .ok sd)
    (hex : fs.pathExists sd = true)
    (hrun : run env fs ld task = .ok r)
    (hok : r.failed = none)
    (hfacts : r.ansible_facts = some facts)
    (hnd : ∀ e ∈ invocationLoadedDicts env fs ld task s sd, keysNodup e) :
    (∀ k, dictGet facts k =
      (invocationLoadedDicts env fs ld task s sd).reverse.findSome?
        (fun e => dictGet e k)) ∧
    (∀ k, (dictGet facts k).isSome = true ↔
      ∃ e ∈ invocationLoadedDicts env fs ld task s sd,
        (dictGet e k).isSome = true) := by
  unfold run at hrun
  rw [hsa] at hrun
  dsimp only at hrun
  unfold runWithSettings at hrun
  rw [hres] at hrun
  dsimp only at hrun
  rw [if_pos hex] at hrun
  cases hrd : runDirs env fs ld task.role.isSome s.matcher
      (ignoreCollPatterns s.ignore_files) (traverseDirDepth fs sd s.depth)
      ⟨[], false, "", true⟩ with
  | error e =>
    rw [hrd] at hrun
    exact absurd hrun (by simp)
  | ok st =>
    rw [hrd] at hrun
    dsimp only at hrun
    injection hrun with h2
    subst h2
    have hffl : st.failedFlag = false := by
      cases hffl2 : st.failedFlag with
      | false => rfl
      | true =>
        have hok2 : (if st.failedFlag then some true else none) = none := hok
        rw [hffl2] at hok2
        simp at hok2
    have hfacts2 : some (finalizeName s.return_results_as_name st.results) = some facts :=
      hfacts
    rw [hname] at hfacts2
    injection hfacts2 with h3
    have hfacts3 : facts = st.results := h3.symm
    have hmain := runDirs_results env fs ld task.role.isSome s.matcher
      (ignoreCollPatterns s.ignore_files) (traverseDirDepth fs sd s.depth)
      ⟨[], false, "", true⟩ st hrd rfl hffl hnd
    have hkey : ∀ k, dictGet facts k =
        (invocationLoadedDicts env fs ld task s sd).reverse.findSome?
          (fun e => dictGet e k) := by
      intro k
      rw [hfacts3, hmain k]
      show ((invocationLoadedDicts env fs ld task s sd).reverse.findSome?
        (fun e => dictGet e k)).or (dictGet [] k) = _
      simp [dictGet]
    refine ⟨hkey, fun k => ?_⟩
    rw [hkey k]
    simp [List.findSome?_isSome_iff, List.mem_reverse]

/-- Witness for C3 on a two-directory fixture with repeated keys. -/
theorem claim_C3_last_writer_wins_witness :
    dictGet factsC3 "x" =
      (invocationLoadedDicts envTriv fsC3 ldC3 taskC3 settingsC3 "/d").reverse.findSome?
        (fun e => dictGet e "x") ∧
    ((dictGet factsC3 "q").isSome = true ↔
      ∃ e ∈ invocationLoadedDicts envTriv fsC3 ldC3 taskC3 settingsC3 "/d",
        (dictGet e "q").isSome = true) := by
  have hnd : ∀ e ∈ invocationLoadedDicts envTriv fsC3 ldC3 taskC3 settingsC3 "/d",
      keysNodup e := by
    intro e he
    have hE : invocationLoadedDicts envTriv fsC3 ldC3 taskC3 settingsC3 "/d" =
        [[("x", PVal.vint 1), ("y", PVal.vint 2)], [("x", PVal.vint 3)],
         [("y", PVal.vint 4), ("z", PVal.vint 5)]] := rfl
    rw [hE] at he
    simp only [List.mem_cons, List.not_mem_nil, or_false] at he
    rcases he with rfl | rfl | rfl <;> decide
  have h := claim_C3_last_writer_wins envTriv fsC3 ldC3 taskC3 settingsC3 "/d"
    resC3 factsC3 rfl rfl rfl rfl rfl rfl rfl hnd
  exact ⟨h.1 "x", h.2 "q"⟩

/-- Witness for the amended C6 at the concrete invalid pattern `(`. -/
theorem claim_C6_amended_witness :
    setArgs envParen taskC6 = .reCompileError (argFormat (.vstr "(")) ∧
    run envParen fsOne ldEmptyDict taskC6 = .error (.reError (argFormat (.vstr "("))) :=
  claim_C6_amended_compile_at_resolution envParen fsOne ldEmptyDict taskC6 (.vstr "(")
    rfl rfl (by decide) (by decide)

end IncludeVarsDir
